import Mathlib

/-!
Verification of the `temp_env_vars` repository.

The repository provides a scope guard (`TempEnvScope`) that snapshots the
process environment at construction and restores it on drop, plus an
attribute that wraps a test function so it runs under a shared mutex with
such a guard.  We embed the environment table as a partial map from
variable names to values, the guard and its drop algorithm step by step
from `src/src/lib.rs`, the attribute expansion as a token-level
transformation from `src/temp_env_vars_macro/src/lib.rs`, and the
serialized two-section scenario as an explicit interleaving state machine.
-/

/-- The process environment table: a mapping from variable name to value
(`std::collections::HashMap<String, String>` in the source, abstracted from
iteration order). `none` means the variable is unset. -/
def Env : Type := String → Option String

/-- `std::env::set_var(k, v)`. -/
def setVar (e : Env) (k v : String) : Env :=
  fun x => if x = k then some v else e x

/-- `std::env::remove_var(k)`. -/
def removeVar (e : Env) (k : String) : Env :=
  fun x => if x = k then none else e x

/-- The empty environment table. -/
def emptyEnv : Env := fun _ => none

/-- The scope guard of `src/src/lib.rs` (`TempEnvScope`) and of
`src/temp_env_vars_core/src/lib.rs` (`TestEnvScope`, identical code):
owns the snapshot `original_vars` taken at construction. -/
structure TempEnvScope where
  original_vars : Env

/-- `TempEnvScope::new`: collects the entire current environment
(`std::env::vars().collect()`) into `original_vars`.  The second component
is the ambient environment handed back to the caller: construction only
reads it, so it is returned unchanged. -/
def TempEnvScope.new (cur : Env) : TempEnvScope × Env :=
  ({ original_vars := cur }, cur)

/-- Step 2 of `TempEnvScope::drop`: the in-memory copy `after` of the
current table with every snapshot key removed
(`self.original_vars.keys().for_each(|key| { after.remove(key); })`).
What is left are exactly the variables added during the scope. -/
def extraVars (original cur : Env) : Env :=
  fun k => if (original k).isSome then none else cur k

/-- Step 3 of `TempEnvScope::drop`: for each key of `extra`, remove that
variable from the process environment
(`after.keys().for_each(|key| { std::env::remove_var(key); })`). -/
def removeExtra (extra cur : Env) : Env :=
  fun k => if (extra k).isSome then none else cur k

/-- Step 4 of `TempEnvScope::drop`: unconditionally set every snapshot
pair (`self.original_vars.iter().for_each(|(k, v)| { std::env::set_var(k, v); })`). -/
def restoreOriginal (original cur : Env) : Env :=
  fun k =>
    match original k with
    | some v => some v
    | none => cur k

/-- `impl Drop for TempEnvScope` from `src/src/lib.rs` lines 96-110:
read the current table (`cur`), drop the snapshot keys from the copy,
remove the remaining (added) keys from the environment, then set every
snapshot pair back. -/
def TempEnvScope.drop (s : TempEnvScope) (cur : Env) : Env :=
  restoreOriginal s.original_vars (removeExtra (extraVars s.original_vars cur) cur)

/-- Concrete variable names and values used to instantiate theorems, taken
from the repository's own tests. -/
def keyFoo : String := "FOO"

def valBar1 : String := "BAR1"

def valBar2 : String := "BAR2"

def valOne : String := "1"

def valTwo : String := "2"

def envFooOnly : Env := setVar emptyEnv keyFoo valBar1

/-!
Token-level embedding of the attribute `temp_env_vars` from
`src/temp_env_vars_macro/src/lib.rs`.  A Rust function item is modelled by
its syntactic parts; token streams are lists of token strings.
-/

/-- A parsed `syn::ItemFn`: outer attributes (each a token list), the
visibility tokens, asyncness, name, parameter-list tokens, optional return
type, and body token list. -/
structure ItemFn where
  attrs : List (List String)
  vis : List String
  isAsync : Bool
  name : String
  inputs : List String
  output : Option String
  block : List String

/-- Tokens of the statement
`let _temp_env_vars_scope_lock = temp_env_vars::TEMP_ENV_VAR_MACRO_MUTEX.lock();`
the expansion prepends to the body. -/
def lockStmtTokens : List String :=
  ["let", "_temp_env_vars_scope_lock", "=", "temp_env_vars", "::",
   "TEMP_ENV_VAR_MACRO_MUTEX", ".", "lock", "(", ")", ";"]

/-- Tokens of the statement
`let _temp_env_vars_scope = temp_env_vars::TempEnvScope::new();`
the expansion prepends to the body. -/
def scopeStmtTokens : List String :=
  ["let", "_temp_env_vars_scope", "=", "temp_env_vars", "::",
   "TempEnvScope", "::", "new", "(", ")", ";"]

/-- The function item produced by the `quote!` block of the attribute
(lines 35-43 of `src/temp_env_vars_macro/src/lib.rs`): same attributes,
visibility, asyncness, name and return type, an empty parameter list
(the expansion writes `fn #name ()`), and the body prefixed with the lock
and scope statements. -/
def generatedFn (f : ItemFn) : ItemFn :=
  { attrs := f.attrs
    vis := f.vis
    isAsync := f.isAsync
    name := f.name
    inputs := []
    output := f.output
    block := lockStmtTokens ++ scopeStmtTokens ++ f.block }

/-- Token rendering of one outer attribute, `#[...]`. -/
def renderAttr (a : List String) : List String :=
  ["#", "["] ++ a ++ ["]"]

/-- Token rendering of a function item, the model of `gen.to_string()`. -/
def renderFn (f : ItemFn) : List String :=
  (f.attrs.map renderAttr).flatten
    ++ f.vis
    ++ (if f.isAsync then ["async"] else [])
    ++ ["fn", f.name, "("] ++ f.inputs ++ [")"]
    ++ (match f.output with
        | some ty => ["->", ty]
        | none => [])
    ++ ["\x7b"] ++ f.block ++ ["\x7d"]

/-- Whether a token stream contains the path `serial_test ::` as adjacent
tokens; the model of `gen.to_string().contains("serial_test ::")`. -/
def hasSerialTestPath : List String → Bool
  | [] => false
  | _ :: [] => false
  | a :: b :: rest => (a == "serial_test" && b == "::") || hasSerialTestPath (b :: rest)

/-- The message of the `panic!` at line 47 of
`src/temp_env_vars_macro/src/lib.rs` (paraphrased). -/
def misorderMsg : String :=
  "Apply the serial annotation after the temp_env_vars annotation"

/-- The attribute `temp_env_vars` on a function item: build the wrapped
function, then fail hard (the `panic!`, modelled as `Except.error`) when the
rendered result contains the `serial_test ::` path, otherwise emit it. -/
def expandTempEnvVars (f : ItemFn) : Except String ItemFn :=
  let gen := generatedFn f
  if hasSerialTestPath (renderFn gen) then Except.error misorderMsg
  else Except.ok gen

/-- Modelled from the spec: the `serial` annotation applied in the wrong
relative order (before `temp_env_vars`) expands first, so the item the
`temp_env_vars` attribute receives already contains the expanded
`serial_test` machinery — the `serial_test ::` path appears among its
attribute tokens or body tokens.  The expansion-order semantics of the
Rust compiler is outside this repository's sources. -/
def serialExpandedFirst (f : ItemFn) : Bool :=
  f.attrs.any (fun a => hasSerialTestPath a) || hasSerialTestPath f.block

/-- A function item with one parameter, used to instantiate theorems. -/
def fnWithParam : ItemFn :=
  { attrs := []
    vis := ["pub"]
    isAsync := false
    name := "some_fn"
    inputs := ["x", ":", "u32"]
    output := none
    block := [] }

/-- A function item on which `serial` was (wrongly) expanded first, used to
instantiate theorems. -/
def serialFirstItem : ItemFn :=
  { attrs := []
    vis := []
    isAsync := false
    name := "test_some"
    inputs := []
    output := none
    block := ["serial_test", "::", "local_serial_core", "(", ")", ";"] }

/-!
Modelled from the spec: the interleaving semantics for two protected
sections.  The shared mutex (`TEMP_ENV_VAR_MACRO_MUTEX`, a
`LazyLock<Arc<Mutex<()>>>`) is a standard-library lock whose semantics the
spec states as: acquire blocks until the lock is free, then marks it held;
release happens when the holding scope ends.  Each protected section is
the function body the attribute generates: acquire the mutex, construct a
`TempEnvScope`, run the body (set the shared variable, assert it still
holds the stored value), let the guard drop, release the mutex.  Threads
interleave arbitrarily subject only to the lock discipline.
-/

/-- Thread identifiers for the two concurrent protected sections. -/
inductive Tid where
  | a
  | b
deriving DecidableEq

/-- The other thread. -/
def Tid.other : Tid → Tid
  | Tid.a => Tid.b
  | Tid.b => Tid.a

/-- Atomic actions a protected section performs on the shared state. -/
inductive Act where
  | lockAct
  | snapAct
  | storeAct (k v : String)
  | checkAct (k v : String)
  | restoreAct
  | unlockAct

/-- The action list of one protected section setting variable `k` to `v`:
acquire the mutex, snapshot the environment (`TempEnvScope::new`), set the
variable, assert it still has the stored value, restore (the guard's
drop), release the mutex. -/
def sectionProg (k v : String) : List Act :=
  [Act.lockAct, Act.snapAct, Act.storeAct k v, Act.checkAct k v,
   Act.restoreAct, Act.unlockAct]

/-- Two protected sections storing distinct values `v Tid.a`, `v Tid.b`
into the same variable `k` (the scenario of `src/tests/macro_test.rs`). -/
def twoSections (k : String) (v : Tid → String) : Tid → List Act :=
  fun t => sectionProg k (v t)

/-- The shared state: the process environment, the mutex owner (`none`
when free), each thread's program counter, and each thread's guard
snapshot. -/
structure CState where
  env : Env
  owner : Option Tid
  pc : Tid → Nat
  snap : Tid → Env

/-- The next action of thread `t` under programs `P`, if any. -/
def actAt (P : Tid → List Act) (t : Tid) (s : CState) : Option Act :=
  (P t).get? (s.pc t)

/-- Advance thread `t`'s program counter. -/
def bump (s : CState) (t : Tid) : Tid → Nat :=
  Function.update s.pc t (s.pc t + 1)

/-- One step of thread `t`: its next action fires, subject to the mutex
discipline (acquire only when free; release only by the holder) and to
assertions (a `checkAct` fires only when the asserted value is current).
The `restoreAct` effect is exactly `TempEnvScope.drop` of the snapshot the
thread took. -/
inductive StepBy (P : Tid → List Act) : Tid → CState → CState → Prop where
  | lockStep (t : Tid) (s : CState)
      (ha : actAt P t s = some Act.lockAct) (ho : s.owner = none) :
      StepBy P t s { s with owner := some t, pc := bump s t }
  | snapStep (t : Tid) (s : CState)
      (ha : actAt P t s = some Act.snapAct) :
      StepBy P t s { s with snap := Function.update s.snap t s.env, pc := bump s t }
  | storeStep (t : Tid) (s : CState) (k v : String)
      (ha : actAt P t s = some (Act.storeAct k v)) :
      StepBy P t s { s with env := setVar s.env k v, pc := bump s t }
  | checkStep (t : Tid) (s : CState) (k v : String)
      (ha : actAt P t s = some (Act.checkAct k v)) (hv : s.env k = some v) :
      StepBy P t s { s with pc := bump s t }
  | restoreStep (t : Tid) (s : CState)
      (ha : actAt P t s = some Act.restoreAct) :
      StepBy P t s { s with env := TempEnvScope.drop ⟨s.snap t⟩ s.env, pc := bump s t }
  | unlockStep (t : Tid) (s : CState)
      (ha : actAt P t s = some Act.unlockAct) (ho : s.owner = some t) :
      StepBy P t s { s with owner := none, pc := bump s t }

/-- One step by either thread. -/
def CStep (P : Tid → List Act) (s s' : CState) : Prop :=
  ∃ t, StepBy P t s s'

/-- The initial state: ambient environment `e0`, mutex free, both threads
at the start, no snapshot taken. -/
def initState (e0 : Env) : CState :=
  { env := e0, owner := none, pc := fun _ => 0, snap := fun _ => emptyEnv }

/-- Reachability from the initial state. -/
def Reach (P : Tid → List Act) (e0 : Env) (s : CState) : Prop :=
  Relation.ReflTransGen (CStep P) (initState e0) s

/-- Thread `t` is mid-section: it has started (taken its `lockAct`) but
not yet finished (its `unlockAct`). -/
def midSection (P : Tid → List Act) (t : Tid) (s : CState) : Prop :=
  0 < s.pc t ∧ s.pc t < (P t).length

/-- The inductive invariant of the two-section system: a mid-section
thread owns the mutex, and a thread about to run its assertion
(`pc = 3`) sees its own stored value. -/
def SectInv (k : String) (v : Tid → String) (s : CState) : Prop :=
  (∀ t : Tid, midSection (twoSections k v) t s → s.owner = some t)
  ∧ (∀ t : Tid, s.pc t = 3 → s.env k = some (v t))

/-- Example value assignment for the two sections, from
`src/tests/macro_test.rs`. -/
def exVals : Tid → String
  | Tid.a => valOne
  | Tid.b => valTwo

/-- The state after thread `a` has acquired the mutex from the empty
initial environment, used to instantiate theorems. -/
def stateW : CState :=
  { initState emptyEnv with owner := some Tid.a, pc := bump (initState emptyEnv) Tid.a }

theorem scope_drop_eq_snapshot (s : TempEnvScope) (cur : Env) (k : String) :
    TempEnvScope.drop s cur k = s.original_vars k := by
  unfold TempEnvScope.drop restoreOriginal removeExtra extraVars
  cases h : s.original_vars k with
  | some v => simp [h]
  | none =>
    cases hc : cur k with
    | some w => simp [h, hc]
    | none => simp [h, hc]

theorem hst_cons (x : String) (l : List String)
    (h : hasSerialTestPath l = true) : hasSerialTestPath (x :: l) = true := by
  cases l with
  | nil => simp [hasSerialTestPath] at h
  | cons y r =>
    simp only [hasSerialTestPath, Bool.or_eq_true]
    exact Or.inr h

theorem hst_append_left (xs ys : List String)
    (h : hasSerialTestPath ys = true) : hasSerialTestPath (xs ++ ys) = true := by
  induction xs with
  | nil => simpa using h
  | cons x r ih => exact hst_cons x (r ++ ys) ih

theorem hst_append_right (xs ys : List String)
    (h : hasSerialTestPath xs = true) : hasSerialTestPath (xs ++ ys) = true := by
  induction xs with
  | nil => simp [hasSerialTestPath] at h
  | cons a rest ih =>
    cases rest with
    | nil => simp [hasSerialTestPath] at h
    | cons b r =>
      simp only [hasSerialTestPath, Bool.or_eq_true] at h
      simp only [List.cons_append, hasSerialTestPath, Bool.or_eq_true]
      rcases h with h | h
      · exact Or.inl h
      · exact Or.inr (by simpa using ih h)

theorem hst_renderAttr (a : List String)
    (h : hasSerialTestPath a = true) : hasSerialTestPath (renderAttr a) = true := by
  unfold renderAttr
  simp only [List.cons_append, List.nil_append]
  exact hst_cons _ _ (hst_cons _ _ (hst_append_right a _ h))

theorem hst_attrs_flatten (attrs : List (List String)) (tail : List String)
    (h : attrs.any (fun a => hasSerialTestPath a) = true) :
    hasSerialTestPath ((attrs.map renderAttr).flatten ++ tail) = true := by
  induction attrs with
  | nil => simp at h
  | cons a as ih =>
    simp only [List.any_cons, Bool.or_eq_true] at h
    simp only [List.map_cons, List.flatten_cons, List.append_assoc]
    rcases h with h | h
    · exact hst_append_right _ _ (hst_renderAttr a h)
    · exact hst_append_left _ _ (by simpa [List.append_assoc] using ih h)

theorem hst_renderFn_gen (f : ItemFn)
    (h : serialExpandedFirst f = true) :
    hasSerialTestPath (renderFn (generatedFn f)) = true := by
  unfold serialExpandedFirst at h
  simp only [Bool.or_eq_true] at h
  unfold renderFn generatedFn
  simp only [List.append_assoc, List.cons_append, List.nil_append]
  rcases h with h | h
  · exact hst_attrs_flatten f.attrs _ h
  · apply hst_append_left
    apply hst_append_left
    apply hst_append_left
    apply hst_cons
    apply hst_cons
    apply hst_cons
    apply hst_cons
    apply hst_append_left
    apply hst_cons
    apply hst_append_left
    apply hst_append_left
    exact hst_append_right _ _ h

theorem sectionProg_get_eq (kk vv : String) (n : Nat) (a : Act)
    (h : (sectionProg kk vv).get? n = some a) :
    (n = 0 ∧ a = Act.lockAct) ∨ (n = 1 ∧ a = Act.snapAct)
    ∨ (n = 2 ∧ a = Act.storeAct kk vv) ∨ (n = 3 ∧ a = Act.checkAct kk vv)
    ∨ (n = 4 ∧ a = Act.restoreAct) ∨ (n = 5 ∧ a = Act.unlockAct) := by
  match n with
  | 0 => simp [sectionProg] at h; simp [h]
  | 1 => simp [sectionProg] at h; simp [h]
  | 2 => simp [sectionProg] at h; simp [h]
  | 3 => simp [sectionProg] at h; simp [h]
  | 4 => simp [sectionProg] at h; simp [h]
  | 5 => simp [sectionProg] at h; simp [h]
  | (m + 6) => simp [sectionProg] at h

theorem stepBy_cases (k : String) (v : Tid → String) (t : Tid) (s s' : CState)
    (h : StepBy (twoSections k v) t s s') :
    (s.pc t = 0 ∧ s.owner = none ∧ s' = { s with owner := some t, pc := bump s t })
    ∨ (s.pc t = 1 ∧ s' = { s with snap := Function.update s.snap t s.env, pc := bump s t })
    ∨ (s.pc t = 2 ∧ s' = { s with env := setVar s.env k (v t), pc := bump s t })
    ∨ (s.pc t = 3 ∧ s.env k = some (v t) ∧ s' = { s with pc := bump s t })
    ∨ (s.pc t = 4 ∧ s' = { s with env := TempEnvScope.drop ⟨s.snap t⟩ s.env, pc := bump s t })
    ∨ (s.pc t = 5 ∧ s.owner = some t ∧ s' = { s with owner := none, pc := bump s t }) := by
  cases h with
  | lockStep ha ho =>
    rcases sectionProg_get_eq k (v t) (s.pc t) _ ha with h | h | h | h | h | h
    · exact Or.inl ⟨h.1, ho, rfl⟩
    · exact Act.noConfusion h.2
    · exact Act.noConfusion h.2
    · exact Act.noConfusion h.2
    · exact Act.noConfusion h.2
    · exact Act.noConfusion h.2
  | snapStep ha =>
    rcases sectionProg_get_eq k (v t) (s.pc t) _ ha with h | h | h | h | h | h
    · exact Act.noConfusion h.2
    · exact Or.inr (Or.inl ⟨h.1, rfl⟩)
    · exact Act.noConfusion h.2
    · exact Act.noConfusion h.2
    · exact Act.noConfusion h.2
    · exact Act.noConfusion h.2
  | storeStep k0 v0 ha =>
    rcases sectionProg_get_eq k (v t) (s.pc t) _ ha with h | h | h | h | h | h
    · exact Act.noConfusion h.2
    · exact Act.noConfusion h.2
    · rcases h with ⟨hpc, heq⟩
      cases heq
      exact Or.inr (Or.inr (Or.inl ⟨hpc, rfl⟩))
    · exact Act.noConfusion h.2
    · exact Act.noConfusion h.2
    · exact Act.noConfusion h.2
  | checkStep k0 v0 ha hv =>
    rcases sectionProg_get_eq k (v t) (s.pc t) _ ha with h | h | h | h | h | h
    · exact Act.noConfusion h.2
    · exact Act.noConfusion h.2
    · exact Act.noConfusion h.2
    · rcases h with ⟨hpc, heq⟩
      cases heq
      exact Or.inr (Or.inr (Or.inr (Or.inl ⟨hpc, hv, rfl⟩)))
    · exact Act.noConfusion h.2
    · exact Act.noConfusion h.2
  | restoreStep ha =>
    rcases sectionProg_get_eq k (v t) (s.pc t) _ ha with h | h | h | h | h | h
    · exact Act.noConfusion h.2
    · exact Act.noConfusion h.2
    · exact Act.noConfusion h.2
    · exact Act.noConfusion h.2
    · exact Or.inr (Or.inr (Or.inr (Or.inr (Or.inl ⟨h.1, rfl⟩))))
    · exact Act.noConfusion h.2
  | unlockStep ha ho =>
    rcases sectionProg_get_eq k (v t) (s.pc t) _ ha with h | h | h | h | h | h
    · exact Act.noConfusion h.2
    · exact Act.noConfusion h.2
    · exact Act.noConfusion h.2
    · exact Act.noConfusion h.2
    · exact Act.noConfusion h.2
    · exact Or.inr (Or.inr (Or.inr (Or.inr (Or.inr ⟨h.1, ho, rfl⟩))))

theorem midSection_iff (k : String) (v : Tid → String) (t : Tid) (s : CState) :
    midSection (twoSections k v) t s ↔ (0 < s.pc t ∧ s.pc t < 6) := by
  simp [midSection, twoSections, sectionProg]

theorem bump_self (s : CState) (t : Tid) : bump s t t = s.pc t + 1 := by
  simp [bump]

theorem bump_other (s : CState) (t u : Tid) (h : u ≠ t) : bump s t u = s.pc u := by
  simp [bump, Function.update_noteq h]

theorem sectInv_init (k : String) (v : Tid → String) (e0 : Env) :
    SectInv k v (initState e0) := by
  constructor
  · intro t ht
    rcases (midSection_iff k v t _).mp ht with ⟨h1, _⟩
    simp [initState] at h1
  · intro t ht
    simp [initState] at ht

theorem setVar_self (e : Env) (kk vv : String) : setVar e kk vv kk = some vv := by
  simp [setVar]

theorem sectInv_preserved (k : String) (v : Tid → String) (s s' : CState)
    (hinv : SectInv k v s) (hstep : CStep (twoSections k v) s s') :
    SectInv k v s' := by
  obtain ⟨t, hst⟩ := hstep
  obtain ⟨hown, hchk⟩ := hinv
  rcases stepBy_cases k v t s s' hst with
    ⟨hpc, ho, hs⟩ | ⟨hpc, hs⟩ | ⟨hpc, hs⟩ | ⟨hpc, hv, hs⟩ | ⟨hpc, hs⟩ | ⟨hpc, ho, hs⟩
  · -- lockAct: pc t goes 0 to 1, owner becomes t
    subst hs
    constructor
    · intro u hu
      by_cases hut : u = t
      · simp [hut]
      · rcases (midSection_iff k v u _).mp hu with ⟨h1, h2⟩
        rw [show ({ s with owner := some t, pc := bump s t } : CState).pc = bump s t from rfl,
          bump_other s t u hut] at h1 h2
        have hmid := hown u ((midSection_iff k v u s).mpr ⟨h1, h2⟩)
        rw [ho] at hmid
        exact Option.noConfusion hmid
    · intro u hu
      rw [show ({ s with owner := some t, pc := bump s t } : CState).pc = bump s t from rfl] at hu
      by_cases hut : u = t
      · subst hut
        rw [bump_self] at hu
        omega
      · rw [bump_other s t u hut] at hu
        exact hchk u hu
  · -- snapAct: pc t goes 1 to 2
    subst hs
    constructor
    · intro u hu
      rcases (midSection_iff k v u _).mp hu with ⟨h1, h2⟩
      by_cases hut : u = t
      · subst hut
        exact hown u ((midSection_iff k v u s).mpr ⟨by omega, by omega⟩)
      · rw [show ({ s with snap := Function.update s.snap t s.env, pc := bump s t } : CState).pc
            = bump s t from rfl, bump_other s t u hut] at h1 h2
        exact hown u ((midSection_iff k v u s).mpr ⟨h1, h2⟩)
    · intro u hu
      rw [show ({ s with snap := Function.update s.snap t s.env, pc := bump s t } : CState).pc
          = bump s t from rfl] at hu
      by_cases hut : u = t
      · subst hut
        rw [bump_self] at hu
        omega
      · rw [bump_other s t u hut] at hu
        exact hchk u hu
  · -- storeAct: pc t goes 2 to 3, env k becomes v t
    subst hs
    constructor
    · intro u hu
      rcases (midSection_iff k v u _).mp hu with ⟨h1, h2⟩
      by_cases hut : u = t
      · subst hut
        exact hown u ((midSection_iff k v u s).mpr ⟨by omega, by omega⟩)
      · rw [show ({ s with env := setVar s.env k (v t), pc := bump s t } : CState).pc
            = bump s t from rfl, bump_other s t u hut] at h1 h2
        exact hown u ((midSection_iff k v u s).mpr ⟨h1, h2⟩)
    · intro u hu
      rw [show ({ s with env := setVar s.env k (v t), pc := bump s t } : CState).pc
          = bump s t from rfl] at hu
      by_cases hut : u = t
      · subst hut
        exact setVar_self s.env k (v u)
      · rw [bump_other s t u hut] at hu
        have hu3 := hown u ((midSection_iff k v u s).mpr ⟨by omega, by omega⟩)
        have ht2 := hown t ((midSection_iff k v t s).mpr ⟨by omega, by omega⟩)
        rw [hu3] at ht2
        exact absurd (Option.some.inj ht2) hut
  · -- checkAct: pc t goes 3 to 4
    subst hs
    constructor
    · intro u hu
      rcases (midSection_iff k v u _).mp hu with ⟨h1, h2⟩
      by_cases hut : u = t
      · subst hut
        exact hown u ((midSection_iff k v u s).mpr ⟨by omega, by omega⟩)
      · rw [show ({ s with pc := bump s t } : CState).pc = bump s t from rfl,
          bump_other s t u hut] at h1 h2
        exact hown u ((midSection_iff k v u s).mpr ⟨h1, h2⟩)
    · intro u hu
      rw [show ({ s with pc := bump s t } : CState).pc = bump s t from rfl] at hu
      by_cases hut : u = t
      · subst hut
        rw [bump_self] at hu
        omega
      · rw [bump_other s t u hut] at hu
        exact hchk u hu
  · -- restoreAct: pc t goes 4 to 5, env restored from snapshot
    subst hs
    constructor
    · intro u hu
      rcases (midSection_iff k v u _).mp hu with ⟨h1, h2⟩
      by_cases hut : u = t
      · subst hut
        exact hown u ((midSection_iff k v u s).mpr ⟨by omega, by omega⟩)
      · rw [show ({ s with env := TempEnvScope.drop ⟨s.snap t⟩ s.env, pc := bump s t } : CState).pc
            = bump s t from rfl, bump_other s t u hut] at h1 h2
        exact hown u ((midSection_iff k v u s).mpr ⟨h1, h2⟩)
    · intro u hu
      rw [show ({ s with env := TempEnvScope.drop ⟨s.snap t⟩ s.env, pc := bump s t } : CState).pc
          = bump s t from rfl] at hu
      by_cases hut : u = t
      · subst hut
        rw [bump_self] at hu
        omega
      · rw [bump_other s t u hut] at hu
        have hu3 := hown u ((midSection_iff k v u s).mpr ⟨by omega, by omega⟩)
        have ht4 := hown t ((midSection_iff k v t s).mpr ⟨by omega, by omega⟩)
        rw [hu3] at ht4
        exact absurd (Option.some.inj ht4) hut
  · -- unlockAct: pc t goes 5 to 6, mutex freed
    subst hs
    constructor
    · intro u hu
      rcases (midSection_iff k v u _).mp hu with ⟨h1, h2⟩
      by_cases hut : u = t
      · subst hut
        rw [show ({ s with owner := none, pc := bump s u } : CState).pc = bump s u from rfl,
          bump_self] at h2
        omega
      · rw [show ({ s with owner := none, pc := bump s t } : CState).pc = bump s t from rfl,
          bump_other s t u hut] at h1 h2
        have hu5 := hown u ((midSection_iff k v u s).mpr ⟨h1, h2⟩)
        rw [ho] at hu5
        exact absurd (Option.some.inj hu5).symm hut
    · intro u hu
      rw [show ({ s with owner := none, pc := bump s t } : CState).pc = bump s t from rfl] at hu
      by_cases hut : u = t
      · subst hut
        rw [bump_self] at hu
        omega
      · rw [bump_other s t u hut] at hu
        exact hchk u hu

theorem reach_sectInv (k : String) (v : Tid → String) (e0 : Env) (s : CState)
    (h : Reach (twoSections k v) e0 s) : SectInv k v s := by
  induction h with
  | refl => exact sectInv_init k v e0
  | tail hr hstep ih => exact sectInv_preserved k v _ _ ih hstep

theorem Tid.other_ne (t : Tid) : Tid.other t ≠ t := by
  cases t <;> simp [Tid.other]

theorem no_step_while_mid (k : String) (v : Tid → String) (s s' : CState) (t : Tid)
    (hinv : SectInv k v s) (hmid : midSection (twoSections k v) t s) :
    ¬ StepBy (twoSections k v) (Tid.other t) s s' := by
  intro hst
  have hne : Tid.other t ≠ t := Tid.other_ne t
  have howner := hinv.1 t hmid
  rcases stepBy_cases k v (Tid.other t) s s' hst with
    ⟨hpc, ho, _⟩ | ⟨hpc, _⟩ | ⟨hpc, _⟩ | ⟨hpc, _, _⟩ | ⟨hpc, _⟩ | ⟨hpc, ho, _⟩
  · rw [howner] at ho
    exact Option.noConfusion ho
  · have hmo := hinv.1 (Tid.other t) ((midSection_iff k v _ s).mpr ⟨by omega, by omega⟩)
    rw [howner] at hmo
    exact hne (Option.some.inj hmo).symm
  · have hmo := hinv.1 (Tid.other t) ((midSection_iff k v _ s).mpr ⟨by omega, by omega⟩)
    rw [howner] at hmo
    exact hne (Option.some.inj hmo).symm
  · have hmo := hinv.1 (Tid.other t) ((midSection_iff k v _ s).mpr ⟨by omega, by omega⟩)
    rw [howner] at hmo
    exact hne (Option.some.inj hmo).symm
  · have hmo := hinv.1 (Tid.other t) ((midSection_iff k v _ s).mpr ⟨by omega, by omega⟩)
    rw [howner] at hmo
    exact hne (Option.some.inj hmo).symm
  · rw [howner] at ho
    exact hne (Option.some.inj ho).symm

/-- C1: releasing the guard makes the process environment set-equal and
value-equal to the snapshot taken at construction: every snapshot pair is
present with its snapshot value and no other name remains, whatever
environment table `cur` is present at release time. -/
theorem C1_release_restores_snapshot (e0 cur : Env) (k : String) :
    TempEnvScope.drop (TempEnvScope.new e0).fst cur k = e0 k :=
  scope_drop_eq_snapshot (TempEnvScope.new e0).fst cur k

/-- C3: a variable name absent at guard construction that is set during
the scope (with arbitrary further mutation before and after) is absent
after release. -/
theorem C3_added_var_absent_after_release (e0 : Env) (n w : String)
    (mut1 mut2 : Env → Env) (h : e0 n = none) :
    TempEnvScope.drop (TempEnvScope.new e0).fst
      (mut2 (setVar (mut1 (TempEnvScope.new e0).snd) n w)) n = none := by
  rw [scope_drop_eq_snapshot]
  exact h

theorem C3_witness :
    emptyEnv keyFoo = none
    ∧ TempEnvScope.drop (TempEnvScope.new emptyEnv).fst
        (id (setVar (id (TempEnvScope.new emptyEnv).snd) keyFoo valBar1)) keyFoo = none :=
  ⟨rfl, C3_added_var_absent_after_release emptyEnv keyFoo valBar1 id id rfl⟩

/-- C4: a variable name present with value `vv` at guard construction that
is removed during the scope (with arbitrary further mutation before and
after) is present again with value `vv` after release. -/
theorem C4_removed_var_restored_after_release (e0 : Env) (n vv : String)
    (mut1 mut2 : Env → Env) (h : e0 n = some vv) :
    TempEnvScope.drop (TempEnvScope.new e0).fst
      (mut2 (removeVar (mut1 (TempEnvScope.new e0).snd) n)) n = some vv := by
  rw [scope_drop_eq_snapshot]
  exact h

theorem C4_witness :
    envFooOnly keyFoo = some valBar1
    ∧ TempEnvScope.drop (TempEnvScope.new envFooOnly).fst
        (id (removeVar (id (TempEnvScope.new envFooOnly).snd) keyFoo)) keyFoo
        = some valBar1 :=
  ⟨by decide,
    C4_removed_var_restored_after_release envFooOnly keyFoo valBar1 id id (by decide)⟩

/-- C5: for guards constructed in sequence (G1 outer at `e0`, then after
mutation `mut1` the inner G2 at `mut1 e0`), releasing G2 restores exactly
G2's snapshot (which includes the mutations between the constructions),
and then releasing G1 restores exactly G1's original snapshot. -/
theorem C5_nested_guards_restore_independently (e0 : Env) (mut1 mut2 : Env → Env)
    (k : String) :
    TempEnvScope.drop (TempEnvScope.new (mut1 (TempEnvScope.new e0).snd)).fst
        (mut2 (mut1 (TempEnvScope.new e0).snd)) k = mut1 e0 k
    ∧ TempEnvScope.drop (TempEnvScope.new e0).fst
        (TempEnvScope.drop (TempEnvScope.new (mut1 (TempEnvScope.new e0).snd)).fst
          (mut2 (mut1 (TempEnvScope.new e0).snd))) k = e0 k :=
  ⟨scope_drop_eq_snapshot _ _ k, scope_drop_eq_snapshot _ _ k⟩

/-- C8: construction reads the entire current environment table into the
snapshot and hands the ambient environment back unchanged: no variable is
added, removed or modified.  As a total Lean function it also never
fails. -/
theorem C8_new_captures_all_and_leaves_env_unchanged (e : Env) (k : String) :
    (TempEnvScope.new e).fst.original_vars k = e k
    ∧ (TempEnvScope.new e).snd k = e k :=
  ⟨rfl, rfl⟩

/-- C9: the removal step of release removes exactly the names absent from
the snapshot: a name is in the removal set iff it is currently present and
absent from the snapshot, and for a name present in the snapshot no
removal is issued, so the removal step leaves it untouched. -/
theorem C9_removal_step_removes_exactly_extra (s : TempEnvScope) (cur : Env)
    (k : String) :
    ((extraVars s.original_vars cur k).isSome = true
      ↔ ((cur k).isSome = true ∧ s.original_vars k = none))
    ∧ (s.original_vars k ≠ none →
        extraVars s.original_vars cur k = none
        ∧ removeExtra (extraVars s.original_vars cur) cur k = cur k) := by
  cases ho : s.original_vars k with
  | some w =>
    refine ⟨?_, ?_⟩
    · simp [extraVars, ho]
    · intro _
      refine ⟨?_, ?_⟩
      · simp [extraVars, ho]
      · simp [removeExtra, extraVars, ho]
  | none =>
    refine ⟨?_, ?_⟩
    · simp [extraVars, ho]
    · intro h
      exact absurd rfl h

theorem C9_witness :
    extraVars envFooOnly emptyEnv keyFoo = none
    ∧ removeExtra (extraVars envFooOnly emptyEnv) emptyEnv keyFoo
        = emptyEnv keyFoo :=
  (C9_removal_step_removes_exactly_extra ⟨envFooOnly⟩ emptyEnv keyFoo).2 (by decide)

/-- C10: the restore procedure is idempotent: when the current environment
already equals the snapshot it leaves every variable unchanged, and
running it twice in succession gives the same environment as running it
once. -/
theorem C10_restore_idempotent (s : TempEnvScope) (cur : Env) (k : String)
    (h : ∀ x, cur x = s.original_vars x) :
    TempEnvScope.drop s cur k = cur k
    ∧ TempEnvScope.drop s (TempEnvScope.drop s cur) k = TempEnvScope.drop s cur k := by
  constructor
  · rw [scope_drop_eq_snapshot, h k]
  · rw [scope_drop_eq_snapshot s (TempEnvScope.drop s cur) k,
      scope_drop_eq_snapshot s cur k]

theorem C10_witness :
    TempEnvScope.drop ⟨envFooOnly⟩ envFooOnly keyFoo = envFooOnly keyFoo
    ∧ TempEnvScope.drop ⟨envFooOnly⟩ (TempEnvScope.drop ⟨envFooOnly⟩ envFooOnly) keyFoo
        = TempEnvScope.drop ⟨envFooOnly⟩ envFooOnly keyFoo :=
  C10_restore_idempotent ⟨envFooOnly⟩ envFooOnly keyFoo (fun _ => rfl)

/-- C6 counterexample: on a function with one parameter the generated
wrapper has an empty parameter list, so the wrapper does not preserve the
original parameter list. -/
theorem C6_counterexample :
    (generatedFn fnWithParam).inputs ≠ fnWithParam.inputs := by decide

/-- C6 (amended): the generated wrapper preserves the wrapped function's
visibility, asyncness, return type, name and attributes, but always emits
an empty parameter list, so the full signature is preserved only for
functions without parameters. -/
theorem C6_wrapper_preserves_vis_async_return (f : ItemFn) :
    (generatedFn f).vis = f.vis ∧ (generatedFn f).isAsync = f.isAsync
    ∧ (generatedFn f).output = f.output ∧ (generatedFn f).name = f.name
    ∧ (generatedFn f).attrs = f.attrs ∧ (generatedFn f).inputs = [] :=
  ⟨rfl, rfl, rfl, rfl, rfl, rfl⟩

/-- C7: when the serial annotation was applied in the wrong relative
order (so the received item already contains the expanded `serial_test`
machinery), the attribute fails hard at expansion time with the
misordering panic instead of emitting code. -/
theorem C7_misordered_serial_fails_at_expansion (f : ItemFn)
    (h : serialExpandedFirst f = true) :
    expandTempEnvVars f = Except.error misorderMsg := by
  simp [expandTempEnvVars, hst_renderFn_gen f h]

theorem C7_witness :
    serialExpandedFirst serialFirstItem = true
    ∧ expandTempEnvVars serialFirstItem = Except.error misorderMsg :=
  ⟨by decide, C7_misordered_serial_fails_at_expansion serialFirstItem (by decide)⟩

/-- C2: in the two-section scenario (both sections setting the same
variable `k` to distinct values under the shared mutex), in every
reachable state at most one section is mid-execution, no step of the
other thread is possible while a section is mid-execution (so one
section's body, including its restore, fully completes before the other's
body begins), and a section about to run its assertion still sees its own
stored value. -/
theorem C2_serialized_sections_mutual_exclusion (k : String) (v : Tid → String)
    (e0 : Env) (s : CState) (_hdistinct : v Tid.a ≠ v Tid.b)
    (hreach : Reach (twoSections k v) e0 s) :
    (¬ (midSection (twoSections k v) Tid.a s ∧ midSection (twoSections k v) Tid.b s))
    ∧ (∀ t : Tid, midSection (twoSections k v) t s →
        ∀ s' : CState, ¬ StepBy (twoSections k v) (Tid.other t) s s')
    ∧ (∀ t : Tid, s.pc t = 3 → s.env k = some (v t)) := by
  have hinv := reach_sectInv k v e0 s hreach
  refine ⟨?_, ?_, hinv.2⟩
  · rintro ⟨ha, hb⟩
    have h1 := hinv.1 Tid.a ha
    have h2 := hinv.1 Tid.b hb
    rw [h1] at h2
    exact Tid.noConfusion (Option.some.inj h2)
  · intro t hmid s'
    exact no_step_while_mid k v s s' t hinv hmid

theorem C2_witness :
    exVals Tid.a ≠ exVals Tid.b
    ∧ ¬ (midSection (twoSections keyFoo exVals) Tid.a stateW
        ∧ midSection (twoSections keyFoo exVals) Tid.b stateW) :=
  ⟨by decide,
    (C2_serialized_sections_mutual_exclusion keyFoo exVals emptyEnv stateW (by decide)
      (Relation.ReflTransGen.single
        ⟨Tid.a, StepBy.lockStep Tid.a (initState emptyEnv) rfl rfl⟩)).1⟩
